import Mathlib

/-!
Shallow embedding of the Agent-X news ingestion/scoring pipeline
(`agent-x-backend`: `services/content_processor.py`,
`services/smart_news_service.py`, `services/news_sources/base_source.py`,
`services/news_sources/rss_source.py`, `news_sources/google_news_source.py`),
with theorems settling the spec claims about it.

Conventions of the embedding:
* Python strings are `Str := List Char` (ASCII inputs; Python's `str.lower`
  agrees with `Char.toLower` on ASCII).
* `datetime` values are rational numbers of seconds since 1970-01-01 UTC;
  `datetime.now()` is an explicit parameter `now`.  Dates parsed by
  `strptime("%d/%m/%Y")` are midnight timestamps, i.e. `86400 * days`
  where `days` is the civil day number relative to the epoch.
* Python floats are idealised as rationals `ℚ` (every score constant in the
  source is a small decimal).
* Network effects are explicit parameters: each adapter fetch takes the
  outcome of its network/parse phase as an `Except`-valued environment.
* `list.sort(key=k, reverse=True)` is `List.insertionSort` with relation
  `fun a b => k b ≤ k a`, which is the same stable descending sort.
-/

abbrev Str := List Char

/-- Coerce a Lean string literal to the `List Char` representation. -/
def lit (s : String) : Str := s.data

/-- Python `str.lower()` (ASCII fragment). -/
def pyLower (s : Str) : Str := s.map Char.toLower

/-- Python's substring test `needle in hay`. -/
def pyContains (needle : Str) : Str → Bool
  | [] => needle.isPrefixOf []
  | c :: rest => needle.isPrefixOf (c :: rest) || pyContains needle rest

/-- Python `str.strip()` (whitespace both ends). -/
def pyStrip (s : Str) : Str :=
  ((s.dropWhile Char.isWhitespace).reverse.dropWhile Char.isWhitespace).reverse

/-- Python `\w` word characters (ASCII fragment of `re`'s default). -/
def isWordChar (c : Char) : Bool := c.isAlphanum || c == '_'

/-- `models/news_models.py` `NewsCategory` enum. -/
inductive NewsCategory where
  | local_events
  | professional_dev
  | industry_trends
  | productivity
  | career_opportunities
  | education
  | technology
deriving DecidableEq, Repr

/-- `NewsCategory.value` strings. -/
def NewsCategory.value : NewsCategory → Str
  | .local_events => lit "local_events"
  | .professional_dev => lit "professional_dev"
  | .industry_trends => lit "industry_trends"
  | .productivity => lit "productivity"
  | .career_opportunities => lit "career_opportunities"
  | .education => lit "education"
  | .technology => lit "technology"

/-- `models/news_models.py` `ActionType` enum. -/
inductive ActionType where
  | add_to_calendar
  | create_task
  | set_reminder
  | bookmark
  | apply
  | register
deriving DecidableEq, Repr

/-- Payload of a `NewsAction.metadata` dict as the source populates it. -/
inductive ActionMeta where
  | dateVal (d : Option Int)
  | typeTag (s : Str)
  | deadlineVal (d : Option Int)
deriving DecidableEq, Repr

/-- `models/news_models.py` `NewsAction` (field `type` renamed `action_type`). -/
structure NewsAction where
  action_type : ActionType
  label : Str
  icon : Str
  color : Str
  meta : ActionMeta
deriving DecidableEq, Repr

/-- `models/news_models.py` `RawArticle`.  `published_at` is seconds since epoch. -/
structure RawArticle where
  title : Str
  description : Str
  url : Str
  published_at : ℚ
  source_name : Str
  content : Option Str := none
  image_url : Option Str := none
  tags : List Str := []
deriving DecidableEq, Repr

/-- `models/news_models.py` `ProcessedArticle`.  The `id` field is a `uuid4`
in the source; the uuid draw is non-deterministic and never inspected, so the
embedding leaves it `[]`. -/
structure ProcessedArticle where
  id : Str
  title : Str
  description : Str
  summary : Str
  url : Str
  image_url : Option Str
  published_at : ℚ
  source : Str
  category : NewsCategory
  relevance_score : ℚ
  quality_score : ℚ
  engagement_score : ℚ
  tags : List Str
  keywords : List Str
  is_local_event : Bool
  is_urgent : Bool
  event_date : Option Int := none
  event_location : Option Str := none
  event_deadline : Option Int := none
  available_actions : List NewsAction := []
deriving DecidableEq, Repr

/-- `models/news_models.py` `UserProfile`. -/
structure UserProfile where
  profession : Str
  location : Str
  interests : List Str
  skill_level : Str
  career_stage : Str
deriving DecidableEq, Repr

/-! ### `services/content_processor.py`: summary, keywords, category -/

/-- Helper for `re.sub(r'<.*?>', '', text)`: after a `<`, the number of
characters through the first `>`, provided no newline comes first (the `.` of
the non-greedy `<.*?>` does not match a newline). -/
def findGtLen : Str → Option Nat
  | [] => none
  | c :: rest =>
    if c = '>' then some 1
    else if c = '\n' then none
    else (findGtLen rest).map (· + 1)

/-- `re.sub(r'<.*?>', '', text)` from `_generate_summary`: a `<` with a
matching `>` removes the span through that `>` (the first argument counts
characters still being skipped); an unmatched `<` is kept verbatim. -/
def stripTagsAux : Nat → Str → Str
  | _ + 1, [] => []
  | n + 1, _ :: rest => stripTagsAux n rest
  | 0, [] => []
  | 0, c :: rest =>
    if c = '<' then
      match findGtLen rest with
      | some k => stripTagsAux k rest
      | none => c :: stripTagsAux 0 rest
    else c :: stripTagsAux 0 rest

def stripTags (s : Str) : Str := stripTagsAux 0 s

/-- `re.split(r'(?<=[.!?]) +', plain_text)`: split at maximal space runs
preceded by a sentence-ending character.  `skipping` marks that we are inside
a separator run; `prev` is the previous character of the original string. -/
def splitSentAux : Bool → Char → List Str → Str → Str → List Str
  | _, _, done, acc, [] => done ++ [acc.reverse]
  | skipping, prev, done, acc, c :: rest =>
    if skipping && (c == ' ') then
      splitSentAux true ' ' done acc rest
    else if (c == ' ') && (prev == '.' || prev == '!' || prev == '?') then
      splitSentAux true ' ' (done ++ [acc.reverse]) [] rest
    else
      splitSentAux false c done (c :: acc) rest

def splitSentences (s : Str) : List Str := splitSentAux false '\x00' [] [] s

/-- The sentence-accumulation loop of `_generate_summary` (the `for sentence
in sentences` loop with its `break`). -/
def buildSummary (maxLength : Nat) : List Str → Str → Str
  | [], acc => acc
  | s :: rest, acc =>
    if acc.length + s.length ≤ maxLength then buildSummary maxLength rest (acc ++ s ++ [' '])
    else acc

/-- `ContentProcessor._generate_summary` (default `max_length=150`). -/
def generate_summary (text : Str) : Str :=
  if text.isEmpty then []
  else
    let plain_text := stripTags text
    if plain_text.length ≤ 150 then plain_text
    else pyStrip (buildSummary 150 (splitSentences plain_text) [])

/-- Tokenizer for `re.findall(r'\b\w{4,}\b', text)`: maximal word-character
runs (a run matches iff its full length is at least 4). -/
def tokenizeAux : Str → Str → List Str
  | acc, [] => if acc.isEmpty then [] else [acc.reverse]
  | acc, c :: rest =>
    if isWordChar c then tokenizeAux (c :: acc) rest
    else if acc.isEmpty then tokenizeAux [] rest
    else acc.reverse :: tokenizeAux [] rest

def pyFindWords4 (text : Str) : List Str :=
  (tokenizeAux [] text).filter (fun w => 4 ≤ w.length)

def stopwords : List Str :=
  [lit "the", lit "this", lit "that", lit "with", lit "from", lit "your", lit "have",
   lit "will", lit "about", lit "into", lit "some", lit "been", lit "they", lit "their",
   lit "them", lit "which", lit "more", lit "these", lit "than", lit "when", lit "what"]

/-- Keys of a Python dict built by first-occurrence insertion. -/
def firstOccur (l : List Str) : List Str :=
  l.foldl (fun acc w => if acc.contains w then acc else acc ++ [w]) []

/-- `ContentProcessor._extract_keywords`: words of length ≥ 4, drop stop
words, rank by frequency (stable descending, Python `sorted` with
`reverse=True`), keep top 10. -/
def extract_keywords (text : Str) : List Str :=
  let words := pyFindWords4 (pyLower text)
  let filtered := words.filter (fun w => !(stopwords.contains w))
  let keys := firstOccur filtered
  (keys.insertionSort (fun a b => filtered.count b ≤ filtered.count a)).take 10

def event_keywords : List Str :=
  [lit "conference", lit "meetup", lit "workshop", lit "seminar", lit "event", lit "summit"]

def career_keywords : List Str :=
  [lit "job", lit "career", lit "vacancy", lit "hiring", lit "opportunity"]

def education_keywords : List Str :=
  [lit "course", lit "training", lit "learning", lit "education", lit "certification"]

def tech_keywords : List Str :=
  [lit "technology", lit "software", lit "hardware", lit "innovation", lit "ai", lit "machine learning"]

def productivity_keywords : List Str :=
  [lit "productivity", lit "efficiency", lit "tool", lit "method", lit "technique"]

/-- `ContentProcessor._classify_category` (the `keywords` argument is unused
in the source as well). -/
def classify_category (text : Str) (keywords : List Str) (profession : Str) : NewsCategory :=
  let t := pyLower text
  if event_keywords.any (fun w => pyContains w t) then .local_events
  else if career_keywords.any (fun w => pyContains w t) then .career_opportunities
  else if education_keywords.any (fun w => pyContains w t) then .education
  else if tech_keywords.any (fun w => pyContains w t) then .technology
  else if pyContains (pyLower profession) t then .professional_dev
  else if productivity_keywords.any (fun w => pyContains w t) then .productivity
  else .industry_trends

/-! ### `services/content_processor.py`: event/deadline detection -/

/-- Take exactly `n` digits. -/
def takeDigits : Nat → Str → Option (Str × Str)
  | 0, s => some ([], s)
  | _ + 1, [] => none
  | n + 1, c :: s =>
    if c.isDigit then (takeDigits n s).map (fun p => (c :: p.1, p.2)) else none

/-- Match one `(/|-)` separator. -/
def matchSep : Str → Option (Char × Str)
  | [] => none
  | c :: s => if c = '/' ∨ c = '-' then some (c, s) else none

/-- One backtracking alternative of `\d{1,2}(/|-)\d{1,2}(/|-)\d{4}` with the
day group of length `l1` and the month group of length `l2`; returns the
matched text and the remaining suffix. -/
def tryDateCombo (l1 l2 : Nat) (s : Str) : Option (Str × Str) :=
  match takeDigits l1 s with
  | none => none
  | some (d1, s1) =>
    match matchSep s1 with
    | none => none
    | some (c1, s2) =>
      match takeDigits l2 s2 with
      | none => none
      | some (d2, s3) =>
        match matchSep s3 with
        | none => none
        | some (c2, s4) =>
          match takeDigits 4 s4 with
          | none => none
          | some (y, s5) => some (d1 ++ c1 :: d2 ++ c2 :: y, s5)

/-- All alternatives in the greedy order of the `re` engine. -/
def tryDateNB (s : Str) : Option (Str × Str) :=
  match tryDateCombo 2 2 s with
  | some r => some r
  | none =>
    match tryDateCombo 2 1 s with
    | some r => some r
    | none =>
      match tryDateCombo 1 2 s with
      | some r => some r
      | none => tryDateCombo 1 1 s

/-- A match attempt of `\b\d{1,2}(/|-)\d{1,2}(/|-)\d{4}\b` at one position
(the leading `\b` is checked by the caller): the trailing `\b` requires the
next character, if any, to be a non-word character. -/
def tryDateAt (s : Str) : Option Str :=
  match tryDateNB s with
  | none => none
  | some (m, rest) =>
    match rest with
    | [] => some m
    | c :: _ => if isWordChar c then none else some m

/-- Left-to-right scan of `re.search`; `prevW` records whether the previous
character is a word character (for the leading `\b`). -/
def searchDateAux : Bool → Str → Option Str
  | _, [] => none
  | prevW, c :: rest =>
    match (if prevW then none else tryDateAt (c :: rest)) with
    | some m => some m
    | none => searchDateAux (isWordChar c) rest

/-- `re.search(r'(\b\d{1,2}(/|-)\d{1,2}(/|-)\d{4}\b)', text)` — the matched text. -/
def findDateMatch (text : Str) : Option Str := searchDateAux false text

/-- Gregorian leap year. -/
def isLeap (y : Nat) : Bool := y % 4 == 0 && (y % 100 != 0 || y % 400 == 0)

def daysInMonth (y m : Nat) : Nat :=
  if m = 2 then (if isLeap y then 29 else 28)
  else if m = 4 ∨ m = 6 ∨ m = 9 ∨ m = 11 then 30
  else 31

/-- Civil day number of `y-m-d` relative to 1970-01-01 (Howard Hinnant's
`days_from_civil`; all divisions below are on non-negative operands). -/
def daysFromCivil (y m d : Nat) : Int :=
  let yy : Int := if m ≤ 2 then (y : Int) - 1 else (y : Int)
  let era : Int := yy / 400
  let yoe : Int := yy - era * 400
  let mp : Int := ((m : Int) + 9) % 12
  let doy : Int := (153 * mp + 2) / 5 + (d : Int) - 1
  let doe : Int := yoe * 365 + yoe / 4 - yoe / 100 + doy
  era * 146097 + doe - 719468

def digitVal (c : Char) : Nat := c.toNat - 48

def parse2 (a b : Char) : Nat := digitVal a * 10 + digitVal b

/-- The `%d` field of `_strptime` (regex `3[01]|[12]\d|0[1-9]|[1-9]`):
a two-digit prefix with value in 1..31, else a single non-zero digit. -/
def matchDayField : Str → Option (Nat × Str)
  | a :: b :: rest =>
    if a.isDigit && b.isDigit && 1 ≤ parse2 a b && parse2 a b ≤ 31 then some (parse2 a b, rest)
    else if a.isDigit && a != '0' then some (digitVal a, b :: rest)
    else none
  | [a] => if a.isDigit && a != '0' then some (digitVal a, []) else none
  | [] => none

/-- The `%m` field of `_strptime` (regex `1[0-2]|0[1-9]|[1-9]`). -/
def matchMonthField : Str → Option (Nat × Str)
  | a :: b :: rest =>
    if a.isDigit && b.isDigit && 1 ≤ parse2 a b && parse2 a b ≤ 12 then some (parse2 a b, rest)
    else if a.isDigit && a != '0' then some (digitVal a, b :: rest)
    else none
  | [a] => if a.isDigit && a != '0' then some (digitVal a, []) else none
  | [] => none

/-- `datetime.strptime(s, "%d/%m/%Y")` as the civil day number of the parsed
date: requires literal `/` separators (a `-` separator raises `ValueError` in
the source and yields `none` here), a 4-digit year ≥ 1, a valid day of month,
and no trailing characters. -/
def strptime_dmY (s : Str) : Option Int :=
  match matchDayField s with
  | none => none
  | some (d, s1) =>
    match s1 with
    | '/' :: s2 =>
      match matchMonthField s2 with
      | none => none
      | some (m, s3) =>
        match s3 with
        | '/' :: y1 :: y2 :: y3 :: y4 :: rest =>
          if y1.isDigit && y2.isDigit && y3.isDigit && y4.isDigit && rest.isEmpty then
            let y := parse2 y1 y2 * 100 + parse2 y3 y4
            if 1 ≤ y ∧ d ≤ daysInMonth y m then some (daysFromCivil y m d) else none
          else none
        | _ => none
    | _ => none

/-- The known-location literals of `_detect_event_info`. -/
def known_locations : List Str :=
  [lit "india", lit "bangalore", lit "mumbai", lit "delhi", lit "karnataka", lit "belagavi"]

/-- Helper for the `deadline[: ]+(...)` pattern: consume the `[: ]+` run. -/
def trySepRun : Str → Option Str
  | [] => none
  | c :: rest =>
    if c = ':' ∨ c = ' ' then some (rest.dropWhile (fun x => x == ':' || x == ' '))
    else none

/-- A match attempt of `deadline[: ]+(\d{1,2}(/|-)\d{1,2}(/|-)\d{4})`
(case-insensitive, no word boundaries) at one position. -/
def tryDeadlineAt (s : Str) : Option Str :=
  if pyLower (s.take 8) = lit "deadline" ∧ 8 ≤ s.length then
    match trySepRun (s.drop 8) with
    | none => none
    | some s2 => (tryDateNB s2).map Prod.fst
  else none

def searchDeadlineAux : Str → Option Str
  | [] => none
  | c :: rest =>
    match tryDeadlineAt (c :: rest) with
    | some m => some m
    | none => searchDeadlineAux rest

/-- Result dict of `_detect_event_info` (`date`/`deadline` are civil day
numbers of the parsed dates). -/
structure EventInfo where
  is_local : Bool
  is_urgent : Bool
  date : Option Int
  location : Option Str
  deadline : Option Int
deriving DecidableEq, Repr

/-- `ContentProcessor._detect_event_info`. -/
def detect_event_info (now : ℚ) (text : Str) : EventInfo :=
  let d := (findDateMatch text).bind strptime_dmY
  let urgent :=
    match d with
    | some dd => if (dd : ℚ) * 86400 ≤ now + 7 * 86400 then true else false
    | none => false
  let tl := pyLower text
  let islocal := known_locations.any (fun loc => pyContains loc tl)
  { is_local := islocal
    is_urgent := urgent
    date := d
    location := known_locations.find? (fun loc => pyContains loc tl)
    deadline := (searchDeadlineAux text).bind strptime_dmY }

/-! ### `services/content_processor.py`: scoring, actions, pipeline -/

/-- The `prof_keywords` table of `_calculate_relevance_score`. -/
def prof_keywords : List (Str × List Str) :=
  [(lit "teacher", [lit "education", lit "learning", lit "student"]),
   (lit "engineer", [lit "technology", lit "software", lit "development"]),
   (lit "student", [lit "scholarship", lit "degree", lit "exam"]),
   (lit "developer", [lit "programming", lit "coding", lit "framework"])]

/-- `ContentProcessor._calculate_relevance_score`. -/
def calculate_relevance_score (text : Str) (keywords : List Str) (profile : UserProfile) : ℚ :=
  let text_lc := pyLower text
  let s1 : ℚ := if pyContains (pyLower profile.profession) text_lc then 0.3 else 0
  let s2 : ℚ := if pyContains (pyLower profile.location) text_lc then 0.2 else 0
  let interests_score : ℚ :=
    ((profile.interests.filter (fun i => pyContains (pyLower i) text_lc)).length : ℚ)
  let s3 : ℚ := min (interests_score * 0.05) 0.25
  let s4 : ℚ :=
    match prof_keywords.find? (fun p => p.1 == pyLower profile.profession) with
    | some p =>
      min (((keywords.filter (fun k => p.2.contains k)).length : ℚ) * 0.05) 0.25
    | none => 0
  min (s1 + s2 + s3 + s4) 1

def reputable_sources : List Str :=
  [lit "bbc", lit "reuters", lit "hindu", lit "times", lit "techcrunch",
   lit "verge", lit "coursera", lit "edsurge"]

/-- `ContentProcessor._calculate_quality_score`. -/
def calculate_quality_score (now : ℚ) (raw : RawArticle) (text : Str) : ℚ :=
  let base : ℚ := 0.4
  let s1 : ℚ := if 100 < text.length then 0.1 else 0
  let s2 : ℚ := if 300 < text.length then 0.15 else 0
  let source_name := pyLower raw.source_name
  let s3 : ℚ := if reputable_sources.any (fun src => pyContains src source_name) then 0.2 else 0
  let age_hours : ℚ := (now - raw.published_at) / 3600
  let s4 : ℚ := if age_hours < 48 then 0.1 else if age_hours < 168 then 0.05 else 0
  let s5 : ℚ := if !(raw.image_url.getD []).isEmpty then 0.05 else 0
  min (base + s1 + s2 + s3 + s4 + s5) 1

/-- `ContentProcessor._generate_actions` (the `category` argument is unused
in the source as well). -/
def generate_actions (text : Str) (ev : EventInfo) (category : NewsCategory) : List NewsAction :=
  let t := pyLower text
  let a1 : List NewsAction :=
    if ev.is_local then
      [{ action_type := .add_to_calendar, label := lit "Add to Calendar",
         icon := lit "calendar_today", color := lit "#2196F3", meta := .dateVal ev.date }]
    else []
  let a2 : List NewsAction :=
    if pyContains (lit "course") t || pyContains (lit "tutorial") t ||
        pyContains (lit "learning") t then
      [{ action_type := .create_task, label := lit "Create Learning Task",
         icon := lit "task_alt", color := lit "#4CAF50", meta := .typeTag (lit "learning") }]
    else []
  let a3 : List NewsAction :=
    if ev.deadline.isSome then
      [{ action_type := .set_reminder, label := lit "Set Reminder",
         icon := lit "notifications", color := lit "#FF9800", meta := .deadlineVal ev.deadline }]
    else []
  let a4 : List NewsAction :=
    if [lit "job", lit "career", lit "hiring", lit "apply"].any (fun w => pyContains w t) then
      [{ action_type := .create_task, label := lit "Create Career Task",
         icon := lit "work", color := lit "#9C27B0", meta := .typeTag (lit "career") }]
    else []
  (a1 ++ a2 ++ a3 ++ a4).take 3

def spam_indicators : List Str :=
  [lit "buy now", lit "limited offer", lit "act fast", lit "click here now"]

/-- `ContentProcessor._meets_quality_threshold`. -/
def meets_quality_threshold (article : ProcessedArticle) : Bool :=
  if article.quality_score < 0.2 then false
  else if article.title.length < 5 ∨ article.description.length < 10 then false
  else if spam_indicators.any
      (fun s => pyContains s (pyLower (article.title ++ ' ' :: article.description))) then false
  else true

/-- `" ".join(filter(None, [raw.title, raw.description, raw.content or ""]))`. -/
def joinSpace : List Str → Str
  | [] => []
  | [x] => x
  | x :: xs => x ++ ' ' :: joinSpace xs

def content_text_of (raw : RawArticle) : Str :=
  joinSpace (([raw.title, raw.description, raw.content.getD []]).filter (fun s => !s.isEmpty))

/-- `ContentProcessor._process_single_article`.  Returns `none` exactly when
the quality gate rejects the article.  The source reads
`event_info.get("event_date")`, a key `_detect_event_info` never writes, so
`event_date` is always `none`. -/
def process_single_article (now : ℚ) (profile : UserProfile) (raw : RawArticle) :
    Option ProcessedArticle :=
  let content_text := content_text_of raw
  let summary := generate_summary
    (if !raw.description.isEmpty then raw.description else (raw.content.getD []))
  let keywords := extract_keywords content_text
  let category := classify_category content_text keywords profile.profession
  let event_info := detect_event_info now content_text
  let relevance_score := calculate_relevance_score content_text keywords profile
  let quality_score := calculate_quality_score now raw content_text
  let actions := generate_actions content_text event_info category
  let processed : ProcessedArticle :=
    { id := []
      title := raw.title
      description := raw.description
      summary := summary
      url := raw.url
      image_url := raw.image_url
      published_at := raw.published_at
      source := raw.source_name
      category := category
      relevance_score := relevance_score
      quality_score := quality_score
      engagement_score := 0
      tags := keywords
      keywords := keywords
      is_local_event := event_info.is_local
      is_urgent := event_info.is_urgent
      event_date := none
      event_location := event_info.location
      event_deadline := event_info.deadline
      available_actions := actions }
  if meets_quality_threshold processed then some processed else none

/-- The sort key `a.relevance_score * 0.6 + a.quality_score * 0.4`. -/
def combinedScore (a : ProcessedArticle) : ℚ :=
  a.relevance_score * 0.6 + a.quality_score * 0.4

/-- `ContentProcessor.process_articles`: per-article processing (the quality
gate inside `_process_single_article` is the only per-article filter), then a
stable descending sort by the combined score, then `[:50]`. -/
def process_articles (now : ℚ) (raws : List RawArticle) (profile : UserProfile) :
    List ProcessedArticle :=
  ((raws.filterMap (process_single_article now profile)).insertionSort
    (fun a b => combinedScore b ≤ combinedScore a)).take 50

/-! ### `services/news_sources/base_source.py` and the two adapters -/

/-- Mutable state of a `BaseNewsSource` (config plus health bookkeeping);
`last_fetch` is a timestamp in seconds. -/
structure SourceState where
  name : Str
  is_active : Bool := true
  priority : Nat := 1
  rate_limit : Option ℚ := none
  last_fetch : Option ℚ := none
  fetch_count : Nat := 0
  error_count : Nat := 0
deriving DecidableEq, Repr

/-- `BaseNewsSource.can_fetch` (note Python truthiness: a rate limit of `0`
counts as "no rate limit", and `last_fetch = None` always allows a fetch). -/
def can_fetch (now : ℚ) (st : SourceState) : Bool :=
  if !st.is_active then false
  else if st.rate_limit.getD 0 = 0 then true
  else
    match st.last_fetch with
    | none => true
    | some t => if (now - t) / 3600 ≥ 1 / st.rate_limit.getD 0 then true else false

/-- `BaseNewsSource.record_fetch`. -/
def record_fetch (now : ℚ) (success : Bool) (st : SourceState) : SourceState :=
  { st with
    last_fetch := some now
    fetch_count := st.fetch_count + 1
    error_count := if success then st.error_count else st.error_count + 1 }

/-- `BaseNewsSource.get_health_score`. -/
def get_health_score (st : SourceState) : ℚ :=
  if st.fetch_count = 0 then 1 else 1 - (st.error_count : ℚ) / (st.fetch_count : ℚ)

/-- `RSSNewsSource.fetch_articles` (default `limit=20`).  The environment
`env` is the outcome of the network read plus feed parse: `.ok arts` carries
the articles parsed from the first 20 feed entries (per-entry parse failures
are skipped inside that phase), `.error` is any raised network/parse error,
which the adapter catches, records via `record_fetch(False)`, and converts to
an empty yield. -/
def rss_fetch_articles (now : ℚ) (st : SourceState) (env : Except Unit (List RawArticle)) :
    SourceState × List RawArticle :=
  if !can_fetch now st then (st, [])
  else
    match env with
    | .ok arts => (record_fetch now true st, arts)
    | .error _ => (record_fetch now false st, [])

/-- `GoogleNewsSource.fetch_articles` (default `limit=20`).  The environment
is one `Except` per built query (`_build_queries` builds 9); a failed query
is logged and skipped (`continue`), and the adapter then *always* calls
`record_fetch(success=True)` and returns the merged results capped at the
limit. -/
def google_fetch_articles (now : ℚ) (st : SourceState)
    (env : List (Except Unit (List RawArticle))) : SourceState × List RawArticle :=
  if !can_fetch now st then (st, [])
  else
    let all_articles := (env.filterMap (fun r => r.toOption)).flatten
    (record_fetch now true st, all_articles.take 20)

/-! ### `services/smart_news_service.py` -/

/-- One configured source as seen by a pipeline run: its current state plus
the outcome its fetch would produce. -/
inductive FetchEnv where
  | rss (r : Except Unit (List RawArticle))
  | google (rs : List (Except Unit (List RawArticle)))
deriving Repr

structure SourceSpec where
  state : SourceState
  env : FetchEnv

/-- Dispatch of `_fetch_from_all_sources` for one source (the orchestrator
skips sources whose `can_fetch()` is false; both adapters also check
`can_fetch` themselves and yield nothing, so the skip is equivalent to
running the adapter). -/
def runSource (now : ℚ) (s : SourceSpec) : SourceState × List RawArticle :=
  match s.env with
  | .rss r => rss_fetch_articles now s.state r
  | .google rs => google_fetch_articles now s.state rs

/-- `SmartNewsService._fetch_from_all_sources`: run every source, merge the
per-source yields in task order (`asyncio.gather` preserves order; an
exception result would be excluded from the merge, and a failed adapter
yields `[]`). -/
def fetch_from_all_sources (now : ℚ) (specs : List SourceSpec) :
    List SourceState × List RawArticle :=
  ((specs.map (runSource now)).map Prod.fst,
   ((specs.map (runSource now)).map Prod.snd).flatten)

/-- Per-source entry of the `get_source_health` report. -/
structure SourceHealthEntry where
  health_score : ℚ
  last_fetch : Option ℚ
  fetch_count : Nat
  error_count : Nat
  can_fetch : Bool
deriving DecidableEq, Repr

structure HealthReport where
  sources : List (Str × SourceHealthEntry)
  overall_health : ℚ
deriving DecidableEq, Repr

/-- `SmartNewsService.get_source_health`. -/
def get_source_health (now : ℚ) (states : List SourceState) : HealthReport :=
  let active := states.filter (fun st => st.is_active)
  let entries := active.map (fun st =>
    (st.name,
     { health_score := get_health_score st
       last_fetch := st.last_fetch
       fetch_count := st.fetch_count
       error_count := st.error_count
       can_fetch := can_fetch now st : SourceHealthEntry }))
  let total_health := (active.map get_health_score).sum
  { sources := entries
    overall_health := if 0 < active.length then total_health / (active.length : ℚ) else 0 }

/-- `ProcessedArticle.to_dict` output (`models/news_models.py`); timestamps
keep their numeric value rather than an iso-format string. -/
structure ArticleDict where
  id : Str
  title : Str
  description : Str
  summary : Str
  url : Str
  image_url : Option Str
  published_at : ℚ
  source : Str
  category : Str
  relevance_score : ℚ
  quality_score : ℚ
  engagement_score : ℚ
  tags : List Str
  keywords : List Str
  is_local_event : Bool
  is_urgent : Bool
  event_date : Option Int
  event_location : Option Str
  event_deadline : Option Int
  available_actions : List NewsAction
deriving DecidableEq, Repr

def ProcessedArticle.to_dict (a : ProcessedArticle) : ArticleDict :=
  { id := a.id
    title := a.title
    description := a.description
    summary := a.summary
    url := a.url
    image_url := a.image_url
    published_at := a.published_at
    source := a.source
    category := a.category.value
    relevance_score := a.relevance_score
    quality_score := a.quality_score
    engagement_score := a.engagement_score
    tags := a.tags
    keywords := a.keywords
    is_local_event := a.is_local_event
    is_urgent := a.is_urgent
    event_date := a.event_date
    event_location := a.event_location
    event_deadline := a.event_deadline
    available_actions := a.available_actions }

/-- Append a dict under its category key, preserving Python dict insertion
order (`categories[category_key].append(...)` with create-on-first-use). -/
def addToGroups (k : Str) (d : ArticleDict) :
    List (Str × List ArticleDict) → List (Str × List ArticleDict)
  | [] => [(k, [d])]
  | (k2, ds) :: rest =>
    if k2 = k then (k2, ds ++ [d]) :: rest else (k2, ds) :: addToGroups k d rest

/-- `SmartNewsService._organize_by_categories`: group by `category.value`,
then sort each group by `relevance_score` descending and cap it at 10. -/
def organize_by_categories (articles : List ProcessedArticle) :
    List (Str × List ArticleDict) :=
  let groups := articles.foldl
    (fun gs a => addToGroups a.category.value a.to_dict gs) []
  groups.map (fun g =>
    (g.1, (g.2.insertionSort (fun x y => y.relevance_score ≤ x.relevance_score)).take 10))

/-- `':'.join(parts)`. -/
def joinCols : List Str → Str
  | [] => []
  | [x] => x
  | x :: xs => x ++ ':' :: joinCols xs

/-- The cache key `f"news:{profession}:{location}:{':'.join(interests or [])}"`
computed in `get_contextual_news`. -/
def cache_key (profession location : Str) (interests : List Str) : Str :=
  lit "news:" ++ profession ++ ':' :: location ++ ':' :: joinCols interests

/-- `metadata` of the response payload. -/
structure PayloadMetadata where
  total_articles : Nat
  raw_articles_fetched : Nat
  sources_used : Nat
  user_profile : Option (Str × Str × List Str) := none
  error : Option Str := none
deriving DecidableEq, Repr

/-- One `debug_info` entry of `_debug_response`. -/
structure DebugEntry where
  title : Str
  source : Str
  published : ℚ
  description_length : Nat
deriving DecidableEq, Repr

/-- The JSON-shaped payload assembled by `SmartNewsService`. -/
structure Payload where
  articles : List ArticleDict
  categories : List (Str × List ArticleDict)
  debug_info : Option (List DebugEntry) := none
  metadata : PayloadMetadata
deriving DecidableEq, Repr

/-- `SmartNewsService._empty_response`. -/
def empty_response : Payload :=
  { articles := []
    categories := []
    metadata :=
      { total_articles := 0
        raw_articles_fetched := 0
        sources_used := 0
        error := some (lit "No articles fetched from sources") } }

/-- `SmartNewsService._debug_response`. -/
def debug_response (raw_articles : List RawArticle) : Payload :=
  { articles := []
    categories := []
    debug_info := some ((raw_articles.take 5).map (fun a =>
      { title := a.title.take 100
        source := a.source_name
        published := a.published_at
        description_length := a.description.length }))
    metadata :=
      { total_articles := 0
        raw_articles_fetched := raw_articles.length
        sources_used := ((raw_articles.map (fun a => a.source_name)).dedup).length
        error := some (lit "Articles fetched but processing failed") } }

/-- `SmartNewsService.get_contextual_news`, cache-miss path (the cache layer
is external state; on a hit the cached payload is returned unchanged).
Returns the payload together with the post-run source states. -/
def get_contextual_news (now : ℚ) (profession location : Str) (interests : List Str)
    (limit : Nat) (specs : List SourceSpec) : Payload × List SourceState :=
  let user_profile : UserProfile :=
    { profession := profession
      location := location
      interests := interests
      skill_level := lit "intermediate"
      career_stage := lit "mid_career" }
  let fetched := fetch_from_all_sources now specs
  let states := fetched.1
  let raw_articles := fetched.2
  if raw_articles.isEmpty then (empty_response, states)
  else
    let processed_articles := process_articles now raw_articles user_profile
    if processed_articles.isEmpty then (debug_response raw_articles, states)
    else
      ({ articles := (processed_articles.take limit).map ProcessedArticle.to_dict
         categories := organize_by_categories processed_articles
         metadata :=
           { total_articles := processed_articles.length
             raw_articles_fetched := raw_articles.length
             sources_used := (states.filter (fun st => st.last_fetch.isSome)).length
             user_profile := some (profession, location, interests)
             error := none } },
       states)

/-! ### Claim C9: health score formula, invariant, and range -/

/-- C9: `get_health_score` returns `1` when `fetch_count = 0` and
`1 − error_count/fetch_count` otherwise; `record_fetch` increments
`fetch_count` on every recorded attempt and `error_count` exactly on
failures, so it maintains `error_count ≤ fetch_count`; under that invariant
the health score lies in `[0, 1]`. -/
theorem health_score_spec (st : SourceState) (now : ℚ) (success : Bool)
    (hinv : st.error_count ≤ st.fetch_count) :
    (st.fetch_count = 0 → get_health_score st = 1) ∧
    (st.fetch_count ≠ 0 →
      get_health_score st = 1 - (st.error_count : ℚ) / (st.fetch_count : ℚ)) ∧
    (record_fetch now success st).fetch_count = st.fetch_count + 1 ∧
    (record_fetch now success st).error_count =
      (if success then st.error_count else st.error_count + 1) ∧
    (record_fetch now success st).error_count ≤ (record_fetch now success st).fetch_count ∧
    0 ≤ get_health_score st ∧ get_health_score st ≤ 1 := by
  refine ⟨fun h => by simp [get_health_score, h], fun h => by simp [get_health_score, h],
    rfl, by cases success <;> rfl, ?_, ?_, ?_⟩
  · cases success <;> simp [record_fetch] <;> omega
  · by_cases h : st.fetch_count = 0
    · simp [get_health_score, h]
    · have hf : (0 : ℚ) < (st.fetch_count : ℚ) := by
        exact_mod_cast Nat.pos_of_ne_zero h
      have : (st.error_count : ℚ) / (st.fetch_count : ℚ) ≤ 1 := by
        rw [div_le_one hf]
        exact_mod_cast hinv
      simp only [get_health_score, if_neg h]
      linarith
  · by_cases h : st.fetch_count = 0
    · simp [get_health_score, h]
    · have hf : (0 : ℚ) < (st.fetch_count : ℚ) := by
        exact_mod_cast Nat.pos_of_ne_zero h
      have : (0 : ℚ) ≤ (st.error_count : ℚ) / (st.fetch_count : ℚ) :=
        div_nonneg (by positivity) (le_of_lt hf)
      simp only [get_health_score, if_neg h]
      linarith

/-- Witness for C9 at a concrete state with 2 fetches and 1 error. -/
theorem health_score_spec_witness :
    ({ name := lit "s", fetch_count := 2, error_count := 1 : SourceState }.error_count ≤ 2) ∧
    (0 ≤ get_health_score { name := lit "s", fetch_count := 2, error_count := 1 } ∧
      get_health_score { name := lit "s", fetch_count := 2, error_count := 1 } ≤ 1) := by
  have h := health_score_spec { name := lit "s", fetch_count := 2, error_count := 1 } 0 true
    (by norm_num)
  exact ⟨by norm_num, h.2.2.2.2.2⟩

/-! ### Claim C10: the top-50 cap and its effect on the payload -/

theorem process_articles_length_le (now : ℚ) (raws : List RawArticle) (profile : UserProfile) :
    (process_articles now raws profile).length ≤ 50 := by
  simp only [process_articles, List.length_take]
  omega

/-- C10: `process_articles` returns at most 50 items, so the payload's
`articles` array holds at most `min limit 50` entries and
`metadata.total_articles` never exceeds 50 (callers pass non-negative
limits; the route layer enforces `1 ≤ limit ≤ 100`). -/
theorem contextual_news_caps (now : ℚ) (raws : List RawArticle) (profile : UserProfile)
    (profession location : Str) (interests : List Str) (limit : Nat)
    (specs : List SourceSpec) :
    (process_articles now raws profile).length ≤ 50 ∧
    ((get_contextual_news now profession location interests limit specs).1.articles).length ≤
      min limit 50 ∧
    (get_contextual_news now profession location interests limit specs).1.metadata.total_articles
      ≤ 50 := by
  refine ⟨process_articles_length_le now raws profile, ?_, ?_⟩
  · simp only [get_contextual_news]
    split
    · simp [empty_response]
    · split
      · simp [debug_response]
      · have h := process_articles_length_le now
          (fetch_from_all_sources now specs).2
          { profession := profession, location := location, interests := interests,
            skill_level := lit "intermediate", career_stage := lit "mid_career" }
        simp only [List.length_map, List.length_take]
        omega
  · simp only [get_contextual_news]
    split
    · simp [empty_response]
    · split
      · simp [debug_response]
      · exact process_articles_length_le now _ _

/-! ### A concrete pipeline scenario used by witnesses and counterexamples.
`t0` is 2025-01-01 00:00:00 UTC (day 20089 of the epoch). -/

def t0 : ℚ := 20089 * 86400

def prof0 : UserProfile :=
  { profession := lit "zz", location := lit "qq", interests := [],
    skill_level := lit "intermediate", career_stage := lit "mid_career" }

/-- Published 2 hours before `t0`. -/
def rawOld : RawArticle :=
  { title := lit "Hello", description := lit "0123456789", url := lit "u1",
    published_at := t0 - 7200, source_name := lit "x" }

/-- Identical except published 1 hour before `t0` (same recency bucket). -/
def rawNew : RawArticle :=
  { title := lit "Hello", description := lit "0123456789", url := lit "u2",
    published_at := t0 - 3600, source_name := lit "x" }

def articleOld : ProcessedArticle :=
  { id := []
    title := lit "Hello"
    description := lit "0123456789"
    summary := lit "0123456789"
    url := lit "u1"
    image_url := none
    published_at := t0 - 7200
    source := lit "x"
    category := .industry_trends
    relevance_score := 0
    quality_score := 1/2
    engagement_score := 0
    tags := [lit "hello", lit "0123456789"]
    keywords := [lit "hello", lit "0123456789"]
    is_local_event := false
    is_urgent := false
    available_actions := [] }

def articleNew : ProcessedArticle :=
  { articleOld with url := lit "u2", published_at := t0 - 3600 }

theorem relevance_eval_hello :
    calculate_relevance_score (lit "Hello 0123456789")
      [lit "hello", lit "0123456789"] prof0 = 0 := by
  have h1 : pyContains (pyLower prof0.profession) (pyLower (lit "Hello 0123456789")) = false := by
    decide
  have h2 : pyContains (pyLower prof0.location) (pyLower (lit "Hello 0123456789")) = false := by
    decide
  have h3 : prof_keywords.find? (fun p => p.1 == pyLower prof0.profession) = none := by decide
  have h4 : prof0.interests = [] := rfl
  norm_num [calculate_relevance_score, h1, h2, h3, h4, min_def]

theorem quality_eval_hello (raw : RawArticle) (hr : raw.source_name = lit "x")
    (hi : raw.image_url = none) (hage : 0 < t0 - raw.published_at)
    (hage2 : t0 - raw.published_at < 48 * 3600) :
    calculate_quality_score t0 raw (lit "Hello 0123456789") = 1/2 := by
  have h1 : (lit "Hello 0123456789").length = 16 := by decide
  have h2 : reputable_sources.any (fun src => pyContains src (pyLower (lit "x"))) = false := by
    decide
  have h4 : (t0 - raw.published_at) / 3600 < 48 := by
    rw [div_lt_iff (by norm_num)]
    linarith
  norm_num [calculate_quality_score, h1, h2, hr, hi, min_def, h4]

theorem meets_eval_hello (a : ProcessedArticle) (ht : a.title = lit "Hello")
    (hd : a.description = lit "0123456789") (hq : a.quality_score = 1/2) :
    meets_quality_threshold a = true := by
  have h5 : (lit "Hello").length = 5 := by decide
  have h10 : (lit "0123456789").length = 10 := by decide
  have hspam : spam_indicators.any
      (fun s => pyContains s (pyLower (lit "Hello" ++ ' ' :: lit "0123456789"))) = false := by
    decide
  norm_num [meets_quality_threshold, ht, hd, hq, h5, h10, hspam]

/-- Evaluation of `_process_single_article` on the two scenario articles. -/
theorem psa_old : process_single_article t0 prof0 rawOld = some articleOld := by
  have hct : content_text_of rawOld = lit "Hello 0123456789" := by decide
  have hsum : generate_summary (if !rawOld.description.isEmpty then rawOld.description
      else rawOld.content.getD []) = lit "0123456789" := by decide
  have hkw : extract_keywords (lit "Hello 0123456789") = [lit "hello", lit "0123456789"] := by
    decide
  have hcat : classify_category (lit "Hello 0123456789") [lit "hello", lit "0123456789"]
      prof0.profession = NewsCategory.industry_trends := by decide
  have hev : detect_event_info t0 (lit "Hello 0123456789") =
      { is_local := false, is_urgent := false, date := none, location := none,
        deadline := none } := by decide
  have hact : generate_actions (lit "Hello 0123456789")
      { is_local := false, is_urgent := false, date := none, location := none, deadline := none }
      NewsCategory.industry_trends = [] := by decide
  have hqual : calculate_quality_score t0 rawOld (lit "Hello 0123456789") = 1/2 :=
    quality_eval_hello rawOld rfl rfl (by norm_num [rawOld, t0]) (by norm_num [rawOld, t0])
  simp only [process_single_article, hct, hsum, hkw, hcat, hev, relevance_eval_hello,
    hqual, hact]
  rw [if_pos]
  · rfl
  · exact meets_eval_hello articleOld rfl rfl rfl

theorem psa_new : process_single_article t0 prof0 rawNew = some articleNew := by
  have hct : content_text_of rawNew = lit "Hello 0123456789" := by decide
  have hsum : generate_summary (if !rawNew.description.isEmpty then rawNew.description
      else rawNew.content.getD []) = lit "0123456789" := by decide
  have hkw : extract_keywords (lit "Hello 0123456789") = [lit "hello", lit "0123456789"] := by
    decide
  have hcat : classify_category (lit "Hello 0123456789") [lit "hello", lit "0123456789"]
      prof0.profession = NewsCategory.industry_trends := by decide
  have hev : detect_event_info t0 (lit "Hello 0123456789") =
      { is_local := false, is_urgent := false, date := none, location := none,
        deadline := none } := by decide
  have hact : generate_actions (lit "Hello 0123456789")
      { is_local := false, is_urgent := false, date := none, location := none, deadline := none }
      NewsCategory.industry_trends = [] := by decide
  have hqual : calculate_quality_score t0 rawNew (lit "Hello 0123456789") = 1/2 :=
    quality_eval_hello rawNew rfl rfl (by norm_num [rawNew, t0]) (by norm_num [rawNew, t0])
  simp only [process_single_article, hct, hsum, hkw, hcat, hev, relevance_eval_hello,
    hqual, hact]
  rw [if_pos]
  · rfl
  · exact meets_eval_hello articleNew rfl rfl rfl

theorem combinedScore_old : combinedScore articleOld = 1/5 := by
  norm_num [combinedScore, articleOld]

theorem combinedScore_new : combinedScore articleNew = 1/5 := by
  norm_num [combinedScore, articleNew, articleOld]

/-! ### Claim C1: output ordering of `process_articles` -/

theorem chain'_insertionSort_key {α : Type} (key : α → ℚ) (l : List α) :
    List.Chain' (fun x y => key y ≤ key x)
      (l.insertionSort (fun x y => key y ≤ key x)) := by
  haveI : IsTotal α fun x y => key y ≤ key x := ⟨fun a b => le_total (key b) (key a)⟩
  haveI : IsTrans α fun x y => key y ≤ key x := ⟨fun a b c h1 h2 => le_trans h2 h1⟩
  exact (List.sorted_insertionSort _ l).chain'

theorem filter_orderedInsert_key {α : Type} (key : α → ℚ) (k : ℚ) (x : α) (l : List α) :
    (l.orderedInsert (fun a b => key b ≤ key a) x).filter (fun a => decide (key a = k)) =
      if key x = k then x :: l.filter (fun a => decide (key a = k))
      else l.filter (fun a => decide (key a = k)) := by
  induction l with
  | nil =>
    simp only [List.orderedInsert, List.filter]
    split <;> simp_all
  | cons y ys ih =>
    simp only [List.orderedInsert]
    split
    · simp only [List.filter]
      split <;> split <;> simp_all
    · rename_i hyx
      have hxy : key x < key y := lt_of_not_le hyx
      simp only [List.filter_cons, ih]
      by_cases hx : key x = k <;> by_cases hy : key y = k <;>
        simp_all [List.filter_cons]

theorem filter_insertionSort_key {α : Type} (key : α → ℚ) (k : ℚ) (l : List α) :
    (l.insertionSort (fun a b => key b ≤ key a)).filter (fun a => decide (key a = k)) =
      l.filter (fun a => decide (key a = k)) := by
  induction l with
  | nil => rfl
  | cons x xs ih =>
    simp only [List.insertionSort, filter_orderedInsert_key, ih, List.filter_cons]
    by_cases hx : key x = k <;> simp_all

/-- C1 (amended): the output of `process_articles` is sorted descending by
`0.6·relevance + 0.4·quality` (adjacent pairs satisfy `score a ≥ score b`),
and the sort is stable: for every score value, the items carrying that score
stay in processing order — ties are *not* reordered by `published_at`. -/
theorem process_articles_sorted_stable (now : ℚ) (raws : List RawArticle)
    (profile : UserProfile) :
    List.Chain' (fun a b => combinedScore b ≤ combinedScore a)
      (process_articles now raws profile) ∧
    ∀ k : ℚ,
      ((raws.filterMap (process_single_article now profile)).insertionSort
          (fun a b => combinedScore b ≤ combinedScore a)).filter
        (fun a => decide (combinedScore a = k)) =
      (raws.filterMap (process_single_article now profile)).filter
        (fun a => decide (combinedScore a = k)) := by
  constructor
  · exact (chain'_insertionSort_key combinedScore _).take 50
  · intro k
    exact filter_insertionSort_key combinedScore k _

/-- C1 counterexample: two processed articles with equal weighted score come
out in input order — the first of the adjacent equal-score pair is the one
with the strictly *older* `published_at`, contradicting the claimed
more-recent-first tie-break. -/
theorem process_articles_tie_not_by_recency :
    (process_articles t0 [rawOld, rawNew] prof0).map (fun a => a.published_at) =
      [t0 - 7200, t0 - 3600] ∧
    (process_articles t0 [rawOld, rawNew] prof0).map combinedScore = [1/5, 1/5] ∧
    (t0 - 7200 : ℚ) < t0 - 3600 := by
  have hrun : process_articles t0 [rawOld, rawNew] prof0 = [articleOld, articleNew] := by
    simp [process_articles, List.filterMap, psa_old, psa_new, List.insertionSort,
      List.orderedInsert, combinedScore_old, combinedScore_new]
  rw [hrun]
  refine ⟨by simp [articleNew, articleOld], ?_, by norm_num⟩
  simp [combinedScore_old, combinedScore_new]

/-! ### Claim C2: the quality-gate invariant on every returned article -/

theorem mem_process_articles_meets {now : ℚ} {raws : List RawArticle} {profile : UserProfile}
    {a : ProcessedArticle} (h : a ∈ process_articles now raws profile) :
    meets_quality_threshold a = true := by
  simp only [process_articles] at h
  have h1 := List.take_subset 50 _ h
  rw [List.mem_insertionSort, List.mem_filterMap] at h1
  obtain ⟨raw, _, hsome⟩ := h1
  simp only [process_single_article, Option.ite_none_right_eq_some,
    Option.some.injEq] at hsome
  exact hsome.2 ▸ hsome.1

/-- C2 (amended): every article returned by `process_articles` passed the
quality gate: `quality_score ≥ 0.2`, `len(title) ≥ 5`, `len(description) ≥
10`, and no spam-blocklist phrase occurs in the combined title+description
text.  The gate is the only per-article filter, but it is not the only step
that discards items: the final `[:50]` truncation does too. -/
theorem process_articles_quality_gate (now : ℚ) (raws : List RawArticle)
    (profile : UserProfile) (a : ProcessedArticle)
    (h : a ∈ process_articles now raws profile) :
    (0.2 : ℚ) ≤ a.quality_score ∧ 5 ≤ a.title.length ∧ 10 ≤ a.description.length ∧
    spam_indicators.any
      (fun s => pyContains s (pyLower (a.title ++ ' ' :: a.description))) = false := by
  have hm := mem_process_articles_meets h
  unfold meets_quality_threshold at hm
  split_ifs at hm with h1 h2 h3
  push_neg at h2
  refine ⟨not_lt.1 h1, h2.1, h2.2, ?_⟩
  exact Bool.not_eq_true _ ▸ eq_false_of_ne_true h3

theorem filterMap_replicate_some {α β : Type} (f : α → Option β) (a : α) (b : β)
    (h : f a = some b) : ∀ n, (List.replicate n a).filterMap f = List.replicate n b := by
  intro n
  induction n with
  | zero => rfl
  | succ n ih => simp [List.replicate_succ, List.filterMap_cons, h, ih]

theorem insertionSort_replicate {α : Type} (r : α → α → Prop) [DecidableRel r] (b : α)
    (hr : r b b) : ∀ n, (List.replicate n b).insertionSort r = List.replicate n b := by
  intro n
  induction n with
  | zero => rfl
  | succ n ih =>
    rw [List.replicate_succ, List.insertionSort, ih]
    cases n with
    | zero => rfl
    | succ m => rw [List.replicate_succ, List.orderedInsert, if_pos hr, ← List.replicate_succ]

/-- C2 counterexample: a run with 51 raw articles in which all 51 pass the
quality gate, yet only 50 items are returned — the `[:50]` truncation in
`process_articles` also discards items, so the quality gate is not the only
step that discards. -/
theorem quality_gate_not_only_discard :
    ((List.replicate 51 rawOld).filterMap (process_single_article t0 prof0)).length = 51 ∧
    (process_articles t0 (List.replicate 51 rawOld) prof0).length = 50 := by
  have hfm : (List.replicate 51 rawOld).filterMap (process_single_article t0 prof0) =
      List.replicate 51 articleOld := filterMap_replicate_some _ _ _ psa_old 51
  refine ⟨by rw [hfm]; simp, ?_⟩
  simp only [process_articles, hfm,
    insertionSort_replicate (fun a b => combinedScore b ≤ combinedScore a) articleOld
      (le_refl (combinedScore articleOld)) 51]
  simp

/-- Witness for C2's amended theorem at a concrete one-article run. -/
theorem process_articles_quality_gate_witness :
    articleOld ∈ process_articles t0 [rawOld] prof0 ∧
    ((0.2 : ℚ) ≤ articleOld.quality_score ∧ 5 ≤ articleOld.title.length ∧
      10 ≤ articleOld.description.length ∧
      spam_indicators.any
        (fun s => pyContains s (pyLower (articleOld.title ++ ' ' :: articleOld.description)))
        = false) := by
  have hrun : process_articles t0 [rawOld] prof0 = [articleOld] := by
    simp [process_articles, List.filterMap, psa_old, List.insertionSort, List.orderedInsert]
  have hmem : articleOld ∈ process_articles t0 [rawOld] prof0 := by
    rw [hrun]
    exact List.mem_singleton_self _
  exact ⟨hmem, process_articles_quality_gate t0 [rawOld] prof0 articleOld hmem⟩

/-! ### Claim C8: per-category groupings -/

/-- Invariant of the grouping fold: every bucket holds only dicts whose
`category` equals the bucket key. -/
def GroupsOk (gs : List (Str × List ArticleDict)) : Prop :=
  ∀ p ∈ gs, ∀ d ∈ p.2, d.category = p.1

theorem groupsOk_addToGroups {gs : List (Str × List ArticleDict)} {k : Str}
    {d : ArticleDict} (hgs : GroupsOk gs) (hd : d.category = k) :
    GroupsOk (addToGroups k d gs) := by
  induction gs with
  | nil =>
    intro p hp q hq
    simp only [addToGroups, List.mem_singleton] at hp
    subst hp
    simp only [List.mem_singleton] at hq
    subst hq
    exact hd
  | cons g rest ih =>
    obtain ⟨k2, ds⟩ := g
    intro p hp q hq
    simp only [addToGroups] at hp
    split at hp
    · rename_i hk
      rcases List.mem_cons.1 hp with h | h
      · subst h
        rcases List.mem_append.1 hq with h2 | h2
        · exact hgs (k2, ds) (List.mem_cons_self _ _) q h2
        · rw [List.mem_singleton] at h2
          subst h2
          exact hk ▸ hd
      · exact hgs p (List.mem_cons_of_mem _ h) q hq
    · rcases List.mem_cons.1 hp with h | h
      · subst h
        exact hgs (k2, ds) (List.mem_cons_self _ _) q hq
      · exact ih (fun p2 hp2 => hgs p2 (List.mem_cons_of_mem _ hp2)) p h q hq

theorem groupsOk_fold (articles : List ProcessedArticle) :
    ∀ gs, GroupsOk gs →
      GroupsOk (articles.foldl (fun gs a => addToGroups a.category.value a.to_dict gs) gs) := by
  induction articles with
  | nil => exact fun gs h => h
  | cons a rest ih =>
    intro gs h
    exact ih _ (groupsOk_addToGroups h rfl)

/-- C8: every dict in `categories[c]` has `category = c`, each group holds at
most 10 entries, and each group is sorted by `relevance_score` descending. -/
theorem categories_groups_spec {articles : List ProcessedArticle} {c : Str}
    {group : List ArticleDict} (h : (c, group) ∈ organize_by_categories articles) :
    (∀ d ∈ group, d.category = c) ∧ group.length ≤ 10 ∧
    List.Chain' (fun x y => y.relevance_score ≤ x.relevance_score) group := by
  simp only [organize_by_categories, List.mem_map] at h
  obtain ⟨⟨k, ds⟩, hmem, heq⟩ := h
  obtain ⟨hk, hg⟩ := Prod.mk.injEq .. ▸ heq
  have hok : GroupsOk (articles.foldl
      (fun gs a => addToGroups a.category.value a.to_dict gs) []) :=
    groupsOk_fold articles [] (by intro p hp; cases hp)
  refine ⟨?_, ?_, ?_⟩
  · intro d hd
    rw [← hg] at hd
    have hds : d ∈ ds := by
      have := List.take_subset 10 _ hd
      rwa [List.mem_insertionSort] at this
    exact hk ▸ hok (k, ds) hmem d hds
  · rw [← hg]
    simp only [List.length_take]
    omega
  · rw [← hg]
    exact (chain'_insertionSort_key (fun d : ArticleDict => d.relevance_score) ds).take 10

/-- Witness for C8 at a concrete one-article grouping. -/
theorem categories_groups_spec_witness :
    ((lit "industry_trends", [articleOld.to_dict]) ∈ organize_by_categories [articleOld]) ∧
    ((∀ d ∈ [articleOld.to_dict], d.category = lit "industry_trends") ∧
      ([articleOld.to_dict]).length ≤ 10 ∧
      List.Chain' (fun x y : ArticleDict => y.relevance_score ≤ x.relevance_score)
        [articleOld.to_dict]) := by
  have hmem : (lit "industry_trends", [articleOld.to_dict]) ∈
      organize_by_categories [articleOld] := by
    rw [show organize_by_categories [articleOld] =
      [(lit "industry_trends", [articleOld.to_dict])] from rfl]
    exact List.mem_singleton_self _
  exact ⟨hmem, categories_groups_spec hmem⟩

/-! ### Claim C5: the cache key -/

/-- Inverse of `joinCols`: split at every `:` (splitting a non-empty
remainder always yields a non-empty list, so `headI`/`tail` recover the
first piece). -/
def splitCols : Str → List Str
  | [] => [[]]
  | c :: rest =>
    if c = ':' then [] :: splitCols rest
    else (c :: (splitCols rest).headI) :: (splitCols rest).tail

theorem splitCols_append_colFree (x : Str) (hx : ':' ∉ x) (t : Str) :
    splitCols (x ++ ':' :: t) = x :: splitCols t := by
  induction x with
  | nil => simp [splitCols]
  | cons c cs ih =>
    have hc : c ≠ ':' := fun h => hx (h ▸ List.mem_cons_self c cs)
    have hcs : ':' ∉ cs := fun h => hx (List.mem_cons_of_mem c h)
    simp only [List.cons_append, splitCols, if_neg hc, List.append_eq]
    rw [ih hcs]
    rfl

theorem splitCols_colFree (x : Str) (hx : ':' ∉ x) : splitCols x = [x] := by
  induction x with
  | nil => rfl
  | cons c cs ih =>
    have hc : c ≠ ':' := fun h => hx (h ▸ List.mem_cons_self c cs)
    have hcs : ':' ∉ cs := fun h => hx (List.mem_cons_of_mem c h)
    simp only [splitCols, if_neg hc]
    rw [ih hcs]
    rfl

theorem splitCols_joinCols : ∀ parts : List Str, parts ≠ [] →
    (∀ p ∈ parts, ':' ∉ p) → splitCols (joinCols parts) = parts := by
  intro parts
  induction parts with
  | nil => intro h; cases h rfl
  | cons x rest ih =>
    intro _ hfree
    cases rest with
    | nil => exact splitCols_colFree x (hfree x (List.mem_cons_self _ _))
    | cons y ys =>
      have hx : ':' ∉ x := hfree x (List.mem_cons_self _ _)
      have : joinCols (x :: y :: ys) = x ++ ':' :: joinCols (y :: ys) := rfl
      rw [this, splitCols_append_colFree x hx,
        ih (by simp) (fun p hp => hfree p (List.mem_cons_of_mem _ hp))]

theorem cache_key_eq_joinCols (p l : Str) (a : Str) (as : List Str) :
    cache_key p l (a :: as) = joinCols (lit "news" :: p :: l :: a :: as) := by
  have h1 : joinCols (lit "news" :: p :: l :: a :: as) =
      lit "news" ++ ':' :: joinCols (p :: l :: a :: as) := rfl
  have h2 : joinCols (p :: l :: a :: as) = p ++ ':' :: joinCols (l :: a :: as) := rfl
  have h3 : joinCols (l :: a :: as) = l ++ ':' :: joinCols (a :: as) := rfl
  have h4 : ∀ X : Str, lit "news:" ++ X = lit "news" ++ ':' :: X := fun X => rfl
  rw [h1, h2, h3, cache_key, ← h4]
  simp [List.cons_append]

/-- C5 (amended): the cache key is a deterministic fingerprint of
`(profession, location, interests)` *in the given order*: for colon-free
components and a non-empty interests list, equal keys force equal triples
(and equal triples trivially give equal keys).  Sorting is absent, so
permuted interest lists need not collide. -/
theorem cache_key_fingerprint (p1 p2 l1 l2 : Str) (i1 i2 : List Str)
    (hp1 : ':' ∉ p1) (hp2 : ':' ∉ p2) (hl1 : ':' ∉ l1) (hl2 : ':' ∉ l2)
    (hi1 : ∀ s ∈ i1, ':' ∉ s) (hi2 : ∀ s ∈ i2, ':' ∉ s)
    (hne1 : i1 ≠ []) (hne2 : i2 ≠ []) :
    cache_key p1 l1 i1 = cache_key p2 l2 i2 ↔ (p1 = p2 ∧ l1 = l2 ∧ i1 = i2) := by
  constructor
  · intro h
    obtain ⟨a1, as1, rfl⟩ : ∃ a as, i1 = a :: as := by
      cases i1 with
      | nil => cases hne1 rfl
      | cons a as => exact ⟨a, as, rfl⟩
    obtain ⟨a2, as2, rfl⟩ : ∃ a as, i2 = a :: as := by
      cases i2 with
      | nil => cases hne2 rfl
      | cons a as => exact ⟨a, as, rfl⟩
    rw [cache_key_eq_joinCols, cache_key_eq_joinCols] at h
    have h1 := congrArg splitCols h
    rw [splitCols_joinCols _ (by simp) ?_, splitCols_joinCols _ (by simp) ?_] at h1
    · obtain ⟨-, h2⟩ := List.cons.injEq .. ▸ h1
      obtain ⟨hp, h3⟩ := List.cons.injEq .. ▸ h2
      obtain ⟨hl, h4⟩ := List.cons.injEq .. ▸ h3
      exact ⟨hp, hl, h4⟩
    · intro s hs
      rcases List.mem_cons.1 hs with rfl | hs
      · decide
      · rcases List.mem_cons.1 hs with rfl | hs
        · exact hp2
        · rcases List.mem_cons.1 hs with rfl | hs
          · exact hl2
          · exact hi2 s hs
    · intro s hs
      rcases List.mem_cons.1 hs with rfl | hs
      · decide
      · rcases List.mem_cons.1 hs with rfl | hs
        · exact hp1
        · rcases List.mem_cons.1 hs with rfl | hs
          · exact hl1
          · exact hi1 s hs
  · rintro ⟨rfl, rfl, rfl⟩
    rfl

/-- C5 counterexample: two interest lists that are permutations of each
other produce different cache keys — the key does not sort interests. -/
theorem cache_key_not_permutation_invariant :
    cache_key (lit "p") (lit "l") [lit "a", lit "b"] ≠
      cache_key (lit "p") (lit "l") [lit "b", lit "a"] ∧
    List.Perm [lit "a", lit "b"] [lit "b", lit "a"] := by
  exact ⟨by decide, by decide⟩

/-- Witness for C5's amended theorem at concrete colon-free inputs. -/
theorem cache_key_fingerprint_witness :
    (':' ∉ lit "p") ∧ ([lit "a"] ≠ ([] : List Str)) ∧
    (cache_key (lit "p") (lit "l") [lit "a"] = cache_key (lit "p") (lit "l") [lit "a"] ↔
      (lit "p" = lit "p" ∧ lit "l" = lit "l" ∧ [lit "a"] = [lit "a"])) := by
  refine ⟨by decide, by decide, ?_⟩
  exact cache_key_fingerprint (lit "p") (lit "p") (lit "l") (lit "l") [lit "a"] [lit "a"]
    (by decide) (by decide) (by decide) (by decide)
    (by intro s hs; rw [List.mem_singleton] at hs; subst hs; decide)
    (by intro s hs; rw [List.mem_singleton] at hs; subst hs; decide)
    (by decide) (by decide)

/-! ### Claim C4: adapter fetch accounting -/

def freshSrc : SourceState := { name := lit "s1" }

/-- C4 (amended): when `can_fetch` allows an attempt, each adapter calls
`record_fetch` exactly once (`fetch_count` rises by exactly 1) and never
raises past its boundary.  The RSS adapter counts a failed fetch via
`record_fetch(False)` and yields `[]`; the Google adapter catches per-query
errors and yields only the successful queries' articles, but it always
records the attempt as a *success* — its `error_count` never changes, even
when every query fails. -/
theorem adapter_record_fetch_policy (now : ℚ) (st : SourceState)
    (h : can_fetch now st = true) :
    (∀ env, (rss_fetch_articles now st env).1.fetch_count = st.fetch_count + 1) ∧
    ((rss_fetch_articles now st (.error ())).1.error_count = st.error_count + 1) ∧
    ((rss_fetch_articles now st (.error ())).2 = []) ∧
    (∀ qenv, (google_fetch_articles now st qenv).1.fetch_count = st.fetch_count + 1 ∧
      (google_fetch_articles now st qenv).1.error_count = st.error_count) := by
  refine ⟨fun env => ?_, ?_, ?_, fun qenv => ⟨?_, ?_⟩⟩
  · cases env <;> simp [rss_fetch_articles, h, record_fetch]
  · simp [rss_fetch_articles, h, record_fetch]
  · simp [rss_fetch_articles, h]
  · simp [google_fetch_articles, h, record_fetch]
  · simp [google_fetch_articles, h, record_fetch]

/-- C4 counterexample: a Google fetch in which all 9 queries raise.  The
attempt is recorded, the yield is empty, but `record_fetch(False)` is never
called: `error_count` stays 0 and the health score stays 1, contradicting
the claim that network errors are counted as errors. -/
theorem google_errors_not_counted :
    (google_fetch_articles 0 freshSrc (List.replicate 9 (Except.error ()))).1.fetch_count = 1 ∧
    (google_fetch_articles 0 freshSrc (List.replicate 9 (Except.error ()))).1.error_count = 0 ∧
    (google_fetch_articles 0 freshSrc (List.replicate 9 (Except.error ()))).2 = [] ∧
    get_health_score
      (google_fetch_articles 0 freshSrc (List.replicate 9 (Except.error ()))).1 = 1 := by
  have hc : can_fetch 0 freshSrc = true := by simp [can_fetch, freshSrc]
  have hrun : google_fetch_articles 0 freshSrc (List.replicate 9 (Except.error ())) =
      (record_fetch 0 true freshSrc, []) := by
    simp [google_fetch_articles, hc, Except.toOption]
  rw [hrun]
  refine ⟨rfl, rfl, rfl, ?_⟩
  norm_num [get_health_score, record_fetch, freshSrc]

/-- Witness for C4's amended theorem at a fresh RSS source. -/
theorem adapter_record_fetch_policy_witness :
    can_fetch 0 freshSrc = true ∧
    (rss_fetch_articles 0 freshSrc (.error ())).1.error_count = freshSrc.error_count + 1 := by
  have hc : can_fetch 0 freshSrc = true := by simp [can_fetch, freshSrc]
  exact ⟨hc, (adapter_record_fetch_policy 0 freshSrc hc).2.1⟩

/-! ### Claim C6: event detection and the urgent flag -/

theorem detect_is_urgent_eq (now : ℚ) (text : Str) :
    (detect_event_info now text).is_urgent =
      (match (findDateMatch text).bind strptime_dmY with
       | some dd => if (dd : ℚ) * 86400 ≤ now + 7 * 86400 then true else false
       | none => false) := rfl

/-- C6 (amended): `_detect_event_info` sets the urgent flag exactly when the
first `\d{1,2}(/|-)\d{1,2}(/|-)\d{4}` match parses under `%d/%m/%Y` and the
parsed date is at most `now + 7 days` — there is *no lower bound*, so dates
arbitrarily far in the past are also flagged urgent.  An item whose text
contains a parsed date within 5 days of now together with a known location
literal gets `is_local = true` and `is_urgent = true`. -/
theorem detect_event_urgent_spec (now : ℚ) (text : Str) :
    ((detect_event_info now text).is_urgent = true ↔
      ∃ d : Int, (findDateMatch text).bind strptime_dmY = some d ∧
        (d : ℚ) * 86400 ≤ now + 7 * 86400) ∧
    (∀ d : Int, (findDateMatch text).bind strptime_dmY = some d →
      |(d : ℚ) * 86400 - now| ≤ 5 * 86400 →
      (∃ loc ∈ known_locations, pyContains loc (pyLower text) = true) →
      (detect_event_info now text).is_local = true ∧
      (detect_event_info now text).is_urgent = true) := by
  constructor
  · rw [detect_is_urgent_eq]
    cases hd : (findDateMatch text).bind strptime_dmY with
    | none => simp
    | some dd =>
      simp only []
      split
      · rename_i hle
        exact ⟨fun _ => ⟨dd, rfl, hle⟩, fun _ => rfl⟩
      · rename_i hnle
        constructor
        · intro hfalse
          cases hfalse
        · rintro ⟨d, hd2, hle⟩
          rw [Option.some.injEq] at hd2
          exact absurd (hd2 ▸ hle) hnle
  · intro d hd habs hloc
    obtain ⟨loc, hlocmem, hlocin⟩ := hloc
    refine ⟨?_, ?_⟩
    · simp only [detect_event_info]
      exact List.any_eq_true.2 ⟨loc, hlocmem, hlocin⟩
    · rw [detect_is_urgent_eq, hd]
      simp only []
      rw [if_pos]
      have h1 := (abs_le.1 habs).2
      linarith

/-- C6 counterexample: at `now` = 2025-01-01, the text "on 01/01/2000"
yields a detected date 25 years in the past — far outside any 7-day window
around now — yet the urgent flag is set, because the code only checks
`dt <= now + 7 days` with no lower bound. -/
theorem urgent_set_for_far_past_date :
    (detect_event_info t0 (lit "on 01/01/2000")).is_urgent = true ∧
    (detect_event_info t0 (lit "on 01/01/2000")).date = some 10957 ∧
    (10957 : ℚ) * 86400 < t0 - 7 * 86400 := by
  have hd : (findDateMatch (lit "on 01/01/2000")).bind strptime_dmY = some 10957 := by decide
  refine ⟨?_, ?_, by norm_num [t0]⟩
  · rw [detect_is_urgent_eq, hd]
    simp only []
    rw [if_pos]
    norm_num [t0]
  · have hdate : (detect_event_info t0 (lit "on 01/01/2000")).date =
        (findDateMatch (lit "on 01/01/2000")).bind strptime_dmY := rfl
    rw [hdate, hd]

/-- Witness for C6's amended theorem: the spec's example scenario — a
Bangalore event dated 2 days after `now` is local and urgent. -/
theorem detect_event_urgent_spec_witness :
    ((findDateMatch (lit "EdTech Summit Bangalore 03/01/2025")).bind strptime_dmY =
      some 20091) ∧
    ((detect_event_info t0 (lit "EdTech Summit Bangalore 03/01/2025")).is_local = true ∧
      (detect_event_info t0 (lit "EdTech Summit Bangalore 03/01/2025")).is_urgent = true) := by
  have hd : (findDateMatch (lit "EdTech Summit Bangalore 03/01/2025")).bind strptime_dmY =
      some 20091 := by decide
  refine ⟨hd, (detect_event_urgent_spec t0 _).2 20091 hd ?_ ?_⟩
  · rw [abs_le]
    constructor <;> norm_num [t0]
  · exact ⟨lit "bangalore", by decide, by decide⟩

/-! ### Claim C7: payload metadata counts -/

theorem runSource_last_fetch (now : ℚ) (s : SourceSpec)
    (h : can_fetch now s.state = true) : (runSource now s).1.last_fetch = some now := by
  obtain ⟨st, env⟩ := s
  cases env with
  | rss r => cases r <;> simp_all [runSource, rss_fetch_articles, record_fetch]
  | google rs => simp_all [runSource, google_fetch_articles, record_fetch]

/-- C7 (amended): on a cache-miss run that yields processed articles, the
metadata carries the processed-item count and the raw pre-filter count, but
`sources_used` counts the sources whose `last_fetch` is set after the run —
i.e. sources that recorded a fetch attempt (for fresh eligible sources, all
of them), *not* the sources that produced at least one item. -/
theorem metadata_counts_spec (now : ℚ) (profession location : Str) (interests : List Str)
    (limit : Nat) (specs : List SourceSpec)
    (hall : ∀ s ∈ specs, can_fetch now s.state = true)
    (hne : process_articles now (fetch_from_all_sources now specs).2
      { profession := profession, location := location, interests := interests,
        skill_level := lit "intermediate", career_stage := lit "mid_career" } ≠ []) :
    (get_contextual_news now profession location interests limit specs).1.metadata.total_articles
      = (process_articles now (fetch_from_all_sources now specs).2
          { profession := profession, location := location, interests := interests,
            skill_level := lit "intermediate", career_stage := lit "mid_career" }).length ∧
    (get_contextual_news now profession location interests limit
        specs).1.metadata.raw_articles_fetched = (fetch_from_all_sources now specs).2.length ∧
    (get_contextual_news now profession location interests limit specs).1.metadata.sources_used
      = specs.length := by
  have hraw : (fetch_from_all_sources now specs).2.isEmpty = false := by
    rw [List.isEmpty_eq_false_iff_exists_mem]
    by_contra hc
    push_neg at hc
    have : (fetch_from_all_sources now specs).2 = [] := List.eq_nil_iff_forall_not_mem.2 hc
    rw [this] at hne
    exact hne rfl
  have hproc : (process_articles now (fetch_from_all_sources now specs).2
      { profession := profession, location := location, interests := interests,
        skill_level := lit "intermediate", career_stage := lit "mid_career" }).isEmpty
        = false := by
    rw [List.isEmpty_eq_false_iff_exists_mem]
    by_contra hc
    push_neg at hc
    exact hne (List.eq_nil_iff_forall_not_mem.2 hc)
  have hfilter : ((fetch_from_all_sources now specs).1.filter
      (fun st => st.last_fetch.isSome)) = (fetch_from_all_sources now specs).1 := by
    rw [List.filter_eq_self]
    intro st hst
    simp only [fetch_from_all_sources, List.map_map, List.mem_map] at hst
    obtain ⟨s, hs, rfl⟩ := hst
    simp only [Function.comp]
    rw [runSource_last_fetch now s (hall s hs)]
    rfl
  simp only [get_contextual_news, hraw, Bool.false_eq_true, if_false, hproc, hfilter]
  refine ⟨trivial, trivial, ?_⟩
  simp [fetch_from_all_sources]

def srcA : SourceState := { name := lit "A" }

def srcB : SourceState := { name := lit "B" }

/-- Source A yields one article, source B fetches successfully but yields
nothing. -/
def specs2 : List SourceSpec :=
  [⟨srcA, .rss (.ok [rawOld])⟩, ⟨srcB, .rss (.ok [])⟩]

theorem canA : can_fetch t0 srcA = true := by simp [can_fetch, srcA]

theorem canB : can_fetch t0 srcB = true := by simp [can_fetch, srcB]

theorem fetch2 : fetch_from_all_sources t0 specs2 =
    ([record_fetch t0 true srcA, record_fetch t0 true srcB], [rawOld]) := by
  simp [fetch_from_all_sources, specs2, runSource, rss_fetch_articles, canA, canB]

theorem proc_single_run : process_articles t0 [rawOld]
    { profession := lit "zz", location := lit "qq", interests := [],
      skill_level := lit "intermediate", career_stage := lit "mid_career" } = [articleOld] := by
  show process_articles t0 [rawOld] prof0 = [articleOld]
  simp [process_articles, List.filterMap, psa_old, List.insertionSort, List.orderedInsert]

/-- C7 counterexample: a run with two fetched sources of which only one
produced an item: the payload reports `sources_used = 2` (both recorded a
fetch), while the number of sources that produced at least one item is 1. -/
theorem sources_used_counts_attempts_not_yields :
    (get_contextual_news t0 (lit "zz") (lit "qq") [] 50 specs2).1.metadata.sources_used = 2 ∧
    ((specs2.map (runSource t0)).filter (fun r => !r.2.isEmpty)).length = 1 := by
  constructor
  · simp [get_contextual_news, fetch2, proc_single_run, record_fetch]
  · simp [specs2, runSource, rss_fetch_articles, canA, canB]

/-- Witness for C7's amended theorem on the two-source run. -/
theorem metadata_counts_spec_witness :
    (∀ s ∈ specs2, can_fetch t0 s.state = true) ∧
    (get_contextual_news t0 (lit "zz") (lit "qq") [] 50 specs2).1.metadata.total_articles = 1 ∧
    (get_contextual_news t0 (lit "zz") (lit "qq") [] 50
      specs2).1.metadata.raw_articles_fetched = 1 ∧
    (get_contextual_news t0 (lit "zz") (lit "qq") [] 50 specs2).1.metadata.sources_used = 2 := by
  have hall : ∀ s ∈ specs2, can_fetch t0 s.state = true := by
    intro s hs
    rcases List.mem_cons.1 hs with rfl | hs
    · exact canA
    · rcases List.mem_cons.1 hs with rfl | hs
      · exact canB
      · cases hs
  have hne : process_articles t0 (fetch_from_all_sources t0 specs2).2
      { profession := lit "zz", location := lit "qq", interests := [],
        skill_level := lit "intermediate", career_stage := lit "mid_career" } ≠ [] := by
    rw [fetch2]
    rw [proc_single_run]
    simp
  have h := metadata_counts_spec t0 (lit "zz") (lit "qq") [] 50 specs2 hall hne
  refine ⟨hall, ?_, ?_, ?_⟩
  · rw [h.1, fetch2, proc_single_run]
    rfl
  · rw [h.2.1, fetch2]
    rfl
  · rw [h.2.2]
    rfl

/-! ### Claim C3: partial-failure isolation -/

/-- A feed-pull source whose fetch succeeds with yield `p.2`. -/
def mkOk (p : SourceState × List RawArticle) : SourceSpec := ⟨p.1, .rss (.ok p.2)⟩

/-- A feed-pull source whose underlying fetch raises. -/
def mkBad (st : SourceState) : SourceSpec := ⟨st, .rss (.error ())⟩

theorem can_fetch_fresh (now : ℚ) (st : SourceState) (ha : st.is_active = true)
    (hl : st.last_fetch = none) : can_fetch now st = true := by
  simp [can_fetch, ha, hl, ite_self]

theorem runSource_ok_snd (now : ℚ) (p : SourceState × List RawArticle)
    (ha : p.1.is_active = true) (hl : p.1.last_fetch = none) :
    (runSource now (mkOk p)).2 = p.2 := by
  simp [runSource, mkOk, rss_fetch_articles, can_fetch_fresh now p.1 ha hl]

theorem runSource_ok_fst (now : ℚ) (p : SourceState × List RawArticle)
    (ha : p.1.is_active = true) (hl : p.1.last_fetch = none) :
    (runSource now (mkOk p)).1 = record_fetch now true p.1 := by
  simp [runSource, mkOk, rss_fetch_articles, can_fetch_fresh now p.1 ha hl]

theorem runSource_bad_snd (now : ℚ) (st : SourceState) :
    (runSource now (mkBad st)).2 = [] := by
  cases h : can_fetch now st <;> simp [runSource, mkBad, rss_fetch_articles, h]

theorem runSource_bad_fst (now : ℚ) (st : SourceState) (ha : st.is_active = true)
    (hl : st.last_fetch = none) :
    (runSource now (mkBad st)).1 = record_fetch now false st := by
  simp [runSource, mkBad, rss_fetch_articles, can_fetch_fresh now st ha hl]

theorem health_record_fresh (now : ℚ) (st : SourceState) (success : Bool)
    (h0 : st.fetch_count = 0) (he : st.error_count = 0) :
    get_health_score (record_fetch now success st) = if success then 1 else 0 := by
  cases success <;> norm_num [get_health_score, record_fetch, h0, he]

theorem list_sum_le_length {l : List ℚ} (h1 : ∀ x ∈ l, x ≤ 1) :
    l.sum ≤ (l.length : ℚ) := by
  induction l with
  | nil => simp
  | cons y ys ih =>
    have hy := h1 y (List.mem_cons_self _ _)
    have hys := ih (fun x hx => h1 x (List.mem_cons_of_mem _ hx))
    simp only [List.sum_cons, List.length_cons]
    push_cast
    linarith

theorem list_sum_lt_length {l : List ℚ} (h1 : ∀ x ∈ l, x ≤ 1) {x0 : ℚ} (hx0 : x0 ∈ l)
    (hlt : x0 < 1) : l.sum < (l.length : ℚ) := by
  induction l with
  | nil => cases hx0
  | cons y ys ih =>
    simp only [List.sum_cons, List.length_cons]
    push_cast
    rcases List.mem_cons.1 hx0 with rfl | hmem
    · have hys := list_sum_le_length (fun x hx => h1 x (List.mem_cons_of_mem _ hx))
      linarith
    · have hy := h1 y (List.mem_cons_self _ _)
      have := ih (fun x hx => h1 x (List.mem_cons_of_mem _ hx)) hmem
      linarith

theorem overall_health_lt_one (now : ℚ) (states : List SourceState)
    (hall : ∀ st ∈ states, st.is_active = true)
    (hle : ∀ st ∈ states, get_health_score st ≤ 1)
    (st0 : SourceState) (hmem : st0 ∈ states) (hlt : get_health_score st0 < 1) :
    (get_source_health now states).overall_health < 1 := by
  simp only [get_source_health]
  rw [List.filter_eq_self.2 (by intro st h; simp [hall st h])]
  rw [if_pos (List.length_pos.2 (List.ne_nil_of_mem hmem))]
  rw [div_lt_one (by exact_mod_cast List.length_pos.2 (List.ne_nil_of_mem hmem))]
  have h1 : ∀ x ∈ states.map get_health_score, x ≤ 1 := by
    intro x hx
    obtain ⟨st, hst, rfl⟩ := List.mem_map.1 hx
    exact hle st hst
  have hx0 : get_health_score st0 ∈ states.map get_health_score :=
    List.mem_map_of_mem _ hmem
  have := list_sum_lt_length h1 hx0 hlt
  simpa using this

theorem contextual_news_error_none (now : ℚ) (profession location : Str)
    (interests : List Str) (limit : Nat) (specs : List SourceSpec)
    (hne : process_articles now (fetch_from_all_sources now specs).2
      { profession := profession, location := location, interests := interests,
        skill_level := lit "intermediate", career_stage := lit "mid_career" } ≠ []) :
    (get_contextual_news now profession location interests limit specs).1.metadata.error
      = none := by
  have hraw : (fetch_from_all_sources now specs).2.isEmpty = false := by
    cases hr : (fetch_from_all_sources now specs).2 with
    | nil => rw [hr] at hne; exact absurd rfl hne
    | cons a l => rfl
  have hproc : (process_articles now (fetch_from_all_sources now specs).2
      { profession := profession, location := location, interests := interests,
        skill_level := lit "intermediate", career_stage := lit "mid_career" }).isEmpty
        = false := by
    cases hp : process_articles now (fetch_from_all_sources now specs).2
        { profession := profession, location := location, interests := interests,
          skill_level := lit "intermediate", career_stage := lit "mid_career" } with
    | nil => exact absurd hp hne
    | cons a l => rfl
  simp only [get_contextual_news, hraw, Bool.false_eq_true, if_false, hproc]

/-- C3 (amended): with exactly one eligible feed-pull source whose
underlying fetch raises, the exception is caught inside the adapter and the
merged raw-article list equals the concatenation of the other sources'
yields (sibling results are never discarded); the failing RSS source records
the error, so `overall_health` is strictly below 1.0; and whenever the
merged articles survive processing, `get_contextual_news` returns a payload
whose metadata carries no error field.  (A failing *query-pull* source, by
contrast, records success — see the C4 analysis — which is what the
counterexample exhibits.) -/
theorem partial_failure_isolation (now : ℚ)
    (pres posts : List (SourceState × List RawArticle)) (bad : SourceState)
    (hpre : ∀ p ∈ pres, p.1.is_active = true ∧ p.1.last_fetch = none ∧
      p.1.fetch_count = 0 ∧ p.1.error_count = 0)
    (hpost : ∀ p ∈ posts, p.1.is_active = true ∧ p.1.last_fetch = none ∧
      p.1.fetch_count = 0 ∧ p.1.error_count = 0)
    (hbad : bad.is_active = true ∧ bad.last_fetch = none ∧ bad.fetch_count = 0 ∧
      bad.error_count = 0) :
    (fetch_from_all_sources now (pres.map mkOk ++ mkBad bad :: posts.map mkOk)).2 =
      (pres.map Prod.snd).flatten ++ (posts.map Prod.snd).flatten ∧
    (get_source_health now
      (fetch_from_all_sources now (pres.map mkOk ++ mkBad bad :: posts.map mkOk)).1
      ).overall_health < 1 ∧
    ∀ (profession location : Str) (interests : List Str) (limit : Nat),
      process_articles now
        (fetch_from_all_sources now (pres.map mkOk ++ mkBad bad :: posts.map mkOk)).2
        { profession := profession, location := location, interests := interests,
          skill_level := lit "intermediate", career_stage := lit "mid_career" } ≠ [] →
      (get_contextual_news now profession location interests limit
        (pres.map mkOk ++ mkBad bad :: posts.map mkOk)).1.metadata.error = none := by
  have hok : ∀ (l : List (SourceState × List RawArticle)),
      (∀ p ∈ l, p.1.is_active = true ∧ p.1.last_fetch = none) →
      ((l.map mkOk).map (runSource now)).map Prod.snd = l.map Prod.snd := by
    intro l hl
    rw [List.map_map, List.map_map]
    exact List.map_congr_left (fun p hp => runSource_ok_snd now p (hl p hp).1 (hl p hp).2)
  have hstates : (fetch_from_all_sources now
      (pres.map mkOk ++ mkBad bad :: posts.map mkOk)).1 =
      pres.map (fun p => record_fetch now true p.1) ++ record_fetch now false bad ::
        posts.map (fun p => record_fetch now true p.1) := by
    simp only [fetch_from_all_sources]
    rw [List.map_append, List.map_cons, List.map_append, List.map_cons,
      runSource_bad_fst now bad hbad.1 hbad.2.1]
    simp only [List.map_map]
    congr 1
    · exact List.map_congr_left
        (fun p hp => runSource_ok_fst now p (hpre p hp).1 (hpre p hp).2.1)
    · congr 1
      exact List.map_congr_left
        (fun p hp => runSource_ok_fst now p (hpost p hp).1 (hpost p hp).2.1)
  refine ⟨?_, ?_, ?_⟩
  · simp only [fetch_from_all_sources]
    rw [List.map_append, List.map_cons, List.map_append, List.map_cons,
      runSource_bad_snd now bad,
      hok pres (fun p hp => ⟨(hpre p hp).1, (hpre p hp).2.1⟩),
      hok posts (fun p hp => ⟨(hpost p hp).1, (hpost p hp).2.1⟩),
      List.flatten_append, List.flatten_cons]
    simp
  · rw [hstates]
    apply overall_health_lt_one now _ ?_ ?_ (record_fetch now false bad) ?_ ?_
    · intro st hst
      rcases List.mem_append.1 hst with h | h
      · obtain ⟨p, hp, rfl⟩ := List.mem_map.1 h
        simpa [record_fetch] using (hpre p hp).1
      · rcases List.mem_cons.1 h with rfl | h
        · simpa [record_fetch] using hbad.1
        · obtain ⟨p, hp, rfl⟩ := List.mem_map.1 h
          simpa [record_fetch] using (hpost p hp).1
    · intro st hst
      rcases List.mem_append.1 hst with h | h
      · obtain ⟨p, hp, rfl⟩ := List.mem_map.1 h
        rw [health_record_fresh now p.1 true (hpre p hp).2.2.1 (hpre p hp).2.2.2]
        norm_num
      · rcases List.mem_cons.1 h with rfl | h
        · rw [health_record_fresh now bad false hbad.2.2.1 hbad.2.2.2]
          norm_num
        · obtain ⟨p, hp, rfl⟩ := List.mem_map.1 h
          rw [health_record_fresh now p.1 true (hpost p hp).2.2.1 (hpost p hp).2.2.2]
          norm_num
    · exact List.mem_append.2 (Or.inr (List.mem_cons_self _ _))
    · rw [health_record_fresh now bad false hbad.2.2.1 hbad.2.2.2]
      norm_num
  · intro profession location interests limit hne
    exact contextual_news_error_none now profession location interests limit _ hne

/-- Source A yields one article; source B is the query-pull (Google) source
and every one of its 9 query fetches raises. -/
def specs3 : List SourceSpec :=
  [⟨srcA, .rss (.ok [rawOld])⟩, ⟨srcB, .google (List.replicate 9 (Except.error ()))⟩]

/-- C3 counterexample: when the one failing eligible source is the
query-pull adapter, the merge isolation still holds (the sibling's yield is
intact), but `get_source_health` reports `overall_health = 1.0`, not
strictly less than 1.0: the Google adapter records its failed attempt as a
success. -/
theorem google_failure_health_stays_one :
    (fetch_from_all_sources t0 specs3).2 = [rawOld] ∧
    (get_source_health t0 (fetch_from_all_sources t0 specs3).1).overall_health = 1 := by
  have hfetch : fetch_from_all_sources t0 specs3 =
      ([record_fetch t0 true srcA, record_fetch t0 true srcB], [rawOld]) := by
    simp [fetch_from_all_sources, specs3, runSource, rss_fetch_articles,
      google_fetch_articles, canA, canB, Except.toOption]
  rw [hfetch]
  refine ⟨rfl, ?_⟩
  norm_num [get_source_health, get_health_score, record_fetch, srcA, srcB]

def presW : List (SourceState × List RawArticle) := [(srcA, [rawOld])]

def specsW : List SourceSpec :=
  presW.map mkOk ++ mkBad srcB :: ([] : List (SourceState × List RawArticle)).map mkOk

/-- Witness for C3's amended theorem: one healthy RSS source plus one
failing RSS source. -/
theorem partial_failure_isolation_witness :
    (fetch_from_all_sources t0 specsW).2 =
      (presW.map Prod.snd).flatten ++
        (([] : List (SourceState × List RawArticle)).map Prod.snd).flatten ∧
    (get_source_health t0 (fetch_from_all_sources t0 specsW).1).overall_health < 1 ∧
    (get_contextual_news t0 (lit "zz") (lit "qq") [] 50 specsW).1.metadata.error = none := by
  have h := partial_failure_isolation t0 presW [] srcB
    (by
      intro p hp
      rw [presW, List.mem_singleton] at hp
      subst hp
      exact ⟨rfl, rfl, rfl, rfl⟩)
    (by intro p hp; cases hp)
    ⟨rfl, rfl, rfl, rfl⟩
  refine ⟨h.1, h.2.1, h.2.2 (lit "zz") (lit "qq") [] 50 ?_⟩
  have hraw : (fetch_from_all_sources t0 (presW.map mkOk ++ mkBad srcB ::
      ([] : List (SourceState × List RawArticle)).map mkOk)).2 = [rawOld] := by
    rw [h.1]
    simp [presW]
  rw [hraw, proc_single_run]
  simp
